import Mathlib

/-!
Verification development for the chart-data windowing and navigation engine
(`src/data.py`, `src/models.py`, `src/schemas.py`, `src/config.py`).

Shallow embedding conventions:
* pandas DataFrames become Lists of structure values; `reset_index(drop=True)`
  is implicit in the value model (positions are always dense 0..n-1);
* timestamps (datetime64 values) become `Int` seconds since the Unix epoch;
  `timedelta(days=d)` becomes `d * oneDay`;
* prices are rationals, volumes are `Int`;
* the process-wide `config` singleton (indicator list, `n_days_intraday`) is
  passed as an explicit parameter to the functions that read it;
* in-place pandas mutation is modelled by state-passing variants (`*_call`)
  that return the final state of the mutable argument alongside the value
  returned to the caller.
-/

namespace DC

/-- One day expressed in the embedding's time unit (seconds). -/
def oneDay : Int := 86400

/-- A row of a daily table (`dict_schema` shape: ticker, date, OHLCV), plus the
derived indicator columns appended by `apply_indicators`, modelled per-row as a
list of (column name, cell value) pairs; a loaded table starts with none. -/
structure Row where
  ticker : String
  date : Int
  open_ : ℚ
  high : ℚ
  low : ℚ
  close : ℚ
  volume : Int
  indicators : List (String × Option ℚ) := []
deriving DecidableEq, Repr, Inhabited

/-- Ascending comparison on the `date` column (`sort_values(by="date")`). -/
def dateLe (a b : Row) : Prop := a.date ≤ b.date

instance : DecidableRel dateLe := fun a b => inferInstanceAs (Decidable (a.date ≤ b.date))

/-- Descending comparison on the `date` column (`sort_values(by="date", ascending=False)`). -/
def dateGe (a b : Row) : Prop := b.date ≤ a.date

instance : DecidableRel dateGe := fun a b => inferInstanceAs (Decidable (b.date ≤ a.date))

/-- The constant `N_DAYS = 30` of data.py line 10: the fixed daily window
radius in days. -/
def N_DAYS : Int := 30

/-- The row mask of data.py lines 28-32: `ticker` matches and `date` lies in the
closed interval `[date - n_days, date + n_days]`. -/
def windowPred (ticker : String) (date n_days : Int) (r : Row) : Bool :=
  r.ticker == ticker && decide (date - n_days ≤ r.date) && decide (r.date ≤ date + n_days)

/-- Body of `load_daily_data` (data.py lines 26-38) with the radius
`n_days = timedelta(days=N_DAYS)` generalised to a parameter: filter by
`windowPred`, take a copy, sort ascending by date, reset the index. -/
def windowExtract (ticker : String) (date n_days : Int) (data : List Row) : List Row :=
  List.insertionSort dateLe (data.filter (windowPred ticker date n_days))

/-- Embeds `load_daily_data` (data.py lines 13-38): the daily window extractor,
radius fixed at `timedelta(days=N_DAYS)`. -/
def load_daily_data (ticker : String) (date : Int) (data : List Row) : List Row :=
  windowExtract ticker date (N_DAYS * oneDay) data

/-- The (ticker, date) deduplication key of a daily row. -/
def keyOf (r : Row) : String × Int := (r.ticker, r.date)

/-- Recursion behind `drop_duplicates`: scan the rows, keeping a row exactly
when its (ticker, date) key has not been seen before. -/
def dropDupTDGo (seen : List (String × Int)) : List Row → List Row
  | [] => []
  | r :: rs =>
    if keyOf r ∈ seen then dropDupTDGo seen rs
    else r :: dropDupTDGo (keyOf r :: seen) rs

/-- Embeds `df.drop_duplicates(subset=["ticker", "date"])` (data.py line 51):
keep the first occurrence of every (ticker, date) key. -/
def dropDuplicatesTD (l : List Row) : List Row := dropDupTDGo [] l

/-- Embeds `astype("int64")` on an integer column (data.py line 52): numpy
wraps the value into the signed 64-bit range. -/
def toInt64 (v : Int) : Int := (v + 2 ^ 63) % 2 ^ 64 - 2 ^ 63

/-- Lexicographic strictly-less-than on character lists, the order pandas uses
when sorting a string column (code-point comparison). -/
def strLtB : List Char → List Char → Bool
  | [], [] => false
  | [], _ :: _ => true
  | _ :: _, [] => false
  | a :: as, b :: bs =>
    if a < b then true else if b < a then false else strLtB as bs

/-- Strictly-less-than on strings, by their character lists. -/
def strLt (a b : String) : Bool := strLtB a.data b.data

/-- Ascending lexicographic comparison on (ticker, date)
(`sort_values(by=["ticker", "date"])`). -/
def tickerDateLe (a b : Row) : Prop :=
  strLt a.ticker b.ticker = true ∨ (a.ticker = b.ticker ∧ a.date ≤ b.date)

instance : DecidableRel tickerDateLe := fun a b =>
  inferInstanceAs (Decidable (strLt a.ticker b.ticker = true ∨ (a.ticker = b.ticker ∧ a.date ≤ b.date)))

/-- Embeds `load_daily_df` (data.py lines 41-55): read the table, drop
duplicate (ticker, date) pairs keeping the first, coerce volume to int64,
sort ascending by (ticker, date), reset the index.  The parameter is the
parsed content of the Feather resource. -/
def load_daily_df (rows : List Row) : List Row :=
  let df := dropDuplicatesTD rows
  let df := df.map fun r => { r with volume := toInt64 r.volume }
  List.insertionSort tickerDateLe df

/-- Distinctness of (ticker, date) keys between two rows. -/
def keyDistinct (a b : Row) : Prop := ¬(a.ticker = b.ticker ∧ a.date = b.date)

/-- An indicator configuration entry (config.py `Indicator`): a name and an
optional parameter dictionary.  Only the integer "period" entry is ever read,
so the dictionary is modelled with natural-number values; pandas rejects a
rolling window below 1, and every claim takes `period ≥ 1`. -/
structure Indicator where
  name : String
  parameters : Option (List (String × Nat))
deriving DecidableEq, Repr

/-- Unweighted mean of a list of rationals. -/
def qmean (l : List ℚ) : ℚ := l.sum / l.length

/-- The trailing rows (at most `i + 1` of them) of row `i`'s ticker group:
the rows at positions `≤ i` whose ticker equals the ticker at position `i`. -/
def groupSoFar (df : List Row) (i : Nat) : List Row :=
  (df.take (i + 1)).filter fun r => r.ticker == (df.getD i default).ticker

/-- Embeds `df.groupby("ticker")["close"].transform(lambda x: x.rolling(window=period).mean())`
(data.py lines 66-68), aligned to the original row order: the cell at row `i`
is the mean of the last `period` closes among rows `≤ i` with row `i`'s ticker,
or missing (NaN) while fewer than `period` such rows exist. -/
def smaTransform (period : Nat) (df : List Row) : List (Option ℚ) :=
  (List.range df.length).map fun i =>
    let g := groupSoFar df i
    if period ≤ g.length then some (qmean ((g.drop (g.length - period)).map Row.close))
    else none

/-- Embeds `df[col_name] = ...` (data.py line 66): append one named derived
column, cell by cell, to the rows of the table. -/
def addColumn (name : String) (vals : List (Option ℚ)) (df : List Row) : List Row :=
  df.zipWith (fun r v => { r with indicators := r.indicators ++ [(name, v)] }) vals

/-- Embeds `apply_indicators` (data.py lines 58-70), with the ambient
`config.indicators` passed explicitly: for every entry named "SMA" whose
parameter dictionary exists and has a "period" key, append the rolling-mean
column `SMA_{period}` computed over the original rows (`df_grouped` is built
once, before the loop); every other entry is skipped. -/
def apply_indicators (indicators : Option (List Indicator)) (df : List Row) : List Row :=
  let indicators_list := indicators.getD []
  indicators_list.foldl (fun acc indicator =>
    if indicator.name == "SMA" then
      match indicator.parameters with
      | some ps =>
        match List.lookup "period" ps with
        | some period => addColumn ("SMA_" ++ toString period) (smaTransform period df) acc
        | none => acc
      | none => acc
    else acc) df

/-- State-passing view of `apply_indicators`: the pandas column assignment
`df[col_name] = ...` mutates the argument in place and `return df` hands that
same object back, so the call returns (final state of the argument, returned
value) and the two components coincide. -/
def apply_indicators_call (indicators : Option (List Indicator)) (df : List Row) :
    List Row × List Row :=
  let df := apply_indicators indicators df
  (df, df)

/-- A datetime64 value as stored in the minute Feather resource: the local
wall-clock reading in seconds, plus the attached timezone offset when the
column is timezone-aware (`none` models a timezone-naive column). -/
structure AwareTime where
  wall : Int
  tzOffset : Option Int
deriving DecidableEq, Repr, Inhabited

/-- A row of the minute Feather resource before loading: ticker, timezone-tagged
`datetime`, calendar `date`, OHLCV. -/
structure MinRawRow where
  ticker : String
  datetime : AwareTime
  date : Int
  open_ : ℚ
  high : ℚ
  low : ℚ
  close : ℚ
  volume : Int
deriving DecidableEq, Repr, Inhabited

/-- A loaded minute row (`min_schema` shape): naive `datetime`, auxiliary
`_date`, OHLCV. -/
structure MinRow where
  ticker : String
  datetime : Int
  _date : Int
  open_ : ℚ
  high : ℚ
  low : ℚ
  close : ℚ
  volume : Int
deriving DecidableEq, Repr, Inhabited

/-- A display-formatted intraday row (`min_chart_schema` shape): the timestamp
rendered as a string, the raw `datetime` and `_date` columns dropped. -/
structure MinChartRow where
  ticker : String
  time : String
  open_ : ℚ
  high : ℚ
  low : ℚ
  close : ℚ
  volume : Int
deriving DecidableEq, Repr, Inhabited

/-- Embeds `dt.tz_localize(None)` on one value: strip the offset and keep the
local wall-clock reading unchanged; on an already-naive column pandas raises,
which the `none` result models. -/
def tz_localize_none (t : AwareTime) : Option Int :=
  match t.tzOffset with
  | some _ => some t.wall
  | none => none

/-- The row produced for an aware input row by data.py lines 83-85: the naive
wall-clock timestamp takes the primary `datetime` field and the calendar date
moves to the auxiliary `_date` field. -/
def stripRow (r : MinRawRow) : MinRow :=
  { ticker := r.ticker, datetime := r.datetime.wall, _date := r.date,
    open_ := r.open_, high := r.high, low := r.low, close := r.close,
    volume := r.volume }

/-- Column-wise `tz_localize(None)` over the table: fails when a row is naive. -/
def stripRows : List MinRawRow → Option (List MinRow)
  | [] => some []
  | r :: rs =>
    match tz_localize_none r.datetime with
    | none => none
    | some naive =>
      (stripRows rs).map fun rest =>
        { ticker := r.ticker, datetime := naive, _date := r.date,
          open_ := r.open_, high := r.high, low := r.low, close := r.close,
          volume := r.volume } :: rest

/-- Ascending lexicographic comparison on (ticker, datetime)
(`sort_values(by=["ticker", "datetime"])`). -/
def tickerDatetimeLe (a b : MinRow) : Prop :=
  strLt a.ticker b.ticker = true ∨ (a.ticker = b.ticker ∧ a.datetime ≤ b.datetime)

instance : DecidableRel tickerDatetimeLe := fun a b =>
  inferInstanceAs (Decidable (strLt a.ticker b.ticker = true ∨ (a.ticker = b.ticker ∧ a.datetime ≤ b.datetime)))

/-- Embeds `load_min_data` (data.py lines 73-88): strip timezone information
off the primary timestamp column (wall clock unchanged), rename the naive
timestamp to `datetime` and the calendar date to `_date`, sort ascending by
(ticker, datetime), reset the index. -/
def load_min_data (rows : List MinRawRow) : Option (List MinRow) :=
  (stripRows rows).map (List.insertionSort tickerDatetimeLe)

/-- Zero-padded two-digit decimal rendering of a day/month/hour/minute/second
component. -/
def pad2 (n : Int) : String := (if n < 10 then "0" else "") ++ toString n

/-- Civil (proleptic Gregorian) date of a day count relative to 1970-01-01,
as (year, month, day); the standard era-based conversion. -/
def civilFromDays (z0 : Int) : Int × Int × Int :=
  let z := z0 + 719468
  let era := z / 146097
  let doe := z - era * 146097
  let yoe := (doe - doe / 1460 + doe / 36524 - doe / 146096) / 365
  let y := yoe + era * 400
  let doy := doe - (365 * yoe + yoe / 4 - yoe / 100)
  let mp := (5 * doy + 2) / 153
  let d := doy - (153 * mp + 2) / 5 + 1
  let m := mp + (if mp < 10 then 3 else -9)
  (y + (if m ≤ 2 then 1 else 0), m, d)

/-- Embeds `strftime("%Y-%m-%d")` of a timestamp in epoch seconds. -/
def strftimeDate (secs : Int) : String :=
  let days := secs / oneDay
  let ymd := civilFromDays days
  toString ymd.1 ++ "-" ++ pad2 ymd.2.1 ++ "-" ++ pad2 ymd.2.2

/-- Embeds `strftime("%Y-%m-%d %H:%M:%S")` of a timestamp in epoch seconds. -/
def strftimeDateTime (secs : Int) : String :=
  let days := secs / oneDay
  let sod := secs % oneDay
  strftimeDate (days * oneDay) ++ " "
    ++ pad2 (sod / 3600) ++ ":" ++ pad2 (sod % 3600 / 60) ++ ":" ++ pad2 (sod % 60)

/-- Embeds `format_min_chart_data` (data.py lines 120-134): render the primary
timestamp into the fixed `YYYY-MM-DD HH:MM:SS` string in a new `time` column
and drop the raw `datetime` and auxiliary `_date` columns; the output shape
(`MinChartRow`) records exactly the surviving columns. -/
def format_min_chart_data (df : List MinRow) : List MinChartRow :=
  df.map fun r =>
    { ticker := r.ticker, time := strftimeDateTime r.datetime,
      open_ := r.open_, high := r.high, low := r.low, close := r.close,
      volume := r.volume }

/-- The row mask of data.py lines 106-110: ticker matches and `datetime` lies
within the closed symmetric interval of radius `n_days` around `date`. -/
def minWindowPred (ticker : String) (date n_days : Int) (r : MinRow) : Bool :=
  r.ticker == ticker && decide (date - n_days ≤ r.datetime) && decide (r.datetime ≤ date + n_days)

/-- Embeds `load_min_chart` (data.py lines 91-117), with the ambient
`config.chart.n_days_intraday` passed explicitly: the radius is the explicit
override when supplied, otherwise the configured intraday day count; filter
the minute table by `minWindowPred` over the `datetime` column, copy, and
display-format the copy (no re-sort: the loaded minute table is already
sorted). -/
def load_min_chart (n_days_intraday : Int) (ticker : String) (date : Int)
    (n_days : Option Int) (data : List MinRow) : List MinChartRow :=
  let nd := (n_days.getD n_days_intraday) * oneDay
  format_min_chart_data (data.filter (minWindowPred ticker date nd))

/-- State-passing view of `load_daily_data` (data.py lines 13-38): the call
returns (final state of the `data` argument, returned window).  The mask and
`.copy()` on line 35 build a fresh table, so the in-place sort and index reset
on lines 36-37 touch only the copy and the argument's final state is its
initial one. -/
def load_daily_data_call (ticker : String) (date : Int) (data : List Row) :
    List Row × List Row :=
  let result := data.filter (windowPred ticker date (N_DAYS * oneDay))
  let result := List.insertionSort dateLe result
  (data, result)

/-- State-passing view of `format_min_chart_data` (data.py lines 120-134): the
column assignment and drops mutate the argument in place and the same object is
returned, so the post-call state of the argument and the returned value
coincide. -/
def format_min_chart_data_call (df : List MinRow) : List MinChartRow × List MinChartRow :=
  let df := format_min_chart_data df
  (df, df)

/-- State-passing view of `load_min_chart` (data.py lines 91-117): the filtered
`.copy()` is what `format_min_chart_data` mutates, so the `data` argument's
final state is its initial one. -/
def load_min_chart_call (n_days_intraday : Int) (ticker : String) (date : Int)
    (n_days : Option Int) (data : List MinRow) : List MinRow × List MinChartRow :=
  let nd := (n_days.getD n_days_intraday) * oneDay
  let result := data.filter (minWindowPred ticker date nd)
  let fmt := format_min_chart_data_call result
  (data, fmt.2)

/-- The abstract catalog base (`ChartsData`, models.py lines 35-68): the
ordered chart list and the integer cursor.  The cursor is a Python int,
so it is modelled as `Int`. -/
structure ChartsData where
  charts : List Row
  current_index : Int
deriving DecidableEq, Repr, Inhabited

/-- Embeds `set_index` (models.py lines 40-41). -/
def ChartsData.set_index (s : ChartsData) (index : Int) : ChartsData :=
  { s with current_index := index }

/-- Embeds `increase_index` (models.py lines 43-48): step the cursor forward,
wrapping to 0 past the last position; returns the updated state and the new
index. -/
def ChartsData.increase_index (s : ChartsData) : ChartsData × Int :=
  if s.current_index < (s.charts.length : Int) - 1 then
    ({ s with current_index := s.current_index + 1 }, s.current_index + 1)
  else
    ({ s with current_index := 0 }, 0)

/-- Embeds `decrease_index` (models.py lines 50-56): step the cursor backward,
wrapping to the last position before 0; returns the updated state and the new
index. -/
def ChartsData.decrease_index (s : ChartsData) : ChartsData × Int :=
  if 0 < s.current_index then
    ({ s with current_index := s.current_index - 1 }, s.current_index - 1)
  else
    ({ s with current_index := (s.charts.length : Int) - 1 }, (s.charts.length : Int) - 1)

/-- The operation `increase_index` applied `n` times. -/
def incIter : Nat → ChartsData → ChartsData
  | 0, s => s
  | n + 1, s => incIter n (s.increase_index).1

/-- The operation `decrease_index` applied `n` times. -/
def decIter : Nat → ChartsData → ChartsData
  | 0, s => s
  | n + 1, s => decIter n (s.decrease_index).1

/-- The metadata record returned by `get_metadata` (models.py lines 133-142). -/
structure Metadata where
  ticker : String
  date_str : String
  date : Int
  timeframe : String
  index : Int
deriving DecidableEq, Repr, Inhabited

/-- The intraday catalog variant (`ChartsMinuteData`, models.py lines 111-153):
catalog table, price table and cursor as in the base class, plus the mutable
display timeframe label. -/
structure ChartsMinuteData where
  charts : List Row
  data : List Row
  current_index : Int
  current_timeframe : String
deriving DecidableEq, Repr, Inhabited

/-- Embeds `ChartsMinuteData.__init__` / `load_dict` / `load_data` (models.py
lines 112-127), with the parsed contents of the two Feather resources and the
ambient indicator configuration as parameters: the catalog is loaded by the
daily loader and re-sorted descending by date, the price table is loaded by the
daily loader and augmented once by the Indicator Engine, the cursor starts at 0
and the timeframe label at "1M". -/
def ChartsMinuteData.init (indicators : Option (List Indicator))
    (dictRows dataRows : List Row) : ChartsMinuteData :=
  { charts := List.insertionSort dateGe (load_daily_df dictRows),
    data := apply_indicators indicators (load_daily_df dataRows),
    current_index := 0,
    current_timeframe := "1M" }

/-- Embeds `set_timeframe` (models.py lines 129-131). -/
def ChartsMinuteData.set_timeframe (s : ChartsMinuteData) (timeframe : String) :
    ChartsMinuteData :=
  { s with current_timeframe := timeframe }

/-- Embeds `ChartsMinuteData.get_metadata` (models.py lines 133-142).
`iloc[index]` is modelled for the valid indices `0 ≤ index < len(charts)` that
the claims quantify over (Python's negative or out-of-range indexing is out of
scope). -/
def ChartsMinuteData.get_metadata (s : ChartsMinuteData) (index : Int) : Metadata :=
  let row := s.charts.getD index.toNat default
  { ticker := row.ticker, date_str := strftimeDate row.date, date := row.date,
    timeframe := s.current_timeframe, index := index }

/-- Embeds `ChartsMinuteData.load_chart` (models.py lines 144-153): defaults
the index to the cursor, reads the metadata, and extracts the window by calling
`load_daily_data` — the daily extractor over the `date` column with the fixed
30-day radius — on the owned price table. -/
def ChartsMinuteData.load_chart (s : ChartsMinuteData) (index : Option Int) :
    List Row × Metadata :=
  let index := index.getD s.current_index
  let metadata := s.get_metadata index
  (load_daily_data metadata.ticker metadata.date s.data, metadata)

/-- A concrete daily row used by several witnesses. -/
def cRowA0 : Row :=
  { ticker := "A", date := 0, open_ := 1, high := 2, low := 1, close := 2, volume := 10 }

/-- A concrete timezone-aware minute row (2023-01-15 00:00:00 at UTC-5). -/
def cMinRaw0 : MinRawRow :=
  { ticker := "A", datetime := { wall := 1673740800, tzOffset := some (-300) },
    date := 1673740800, open_ := 1, high := 2, low := 1, close := 2, volume := 3 }

/-- A second concrete timezone-aware minute row, one minute later. -/
def cMinRaw1 : MinRawRow :=
  { ticker := "A", datetime := { wall := 1673740860, tzOffset := some (-300) },
    date := 1673740800, open_ := 2, high := 3, low := 2, close := 3, volume := 4 }

/-- A concrete catalog state of size 3 with the cursor at the last position. -/
def cNavState : ChartsData := { charts := [cRowA0, cRowA0, cRowA0], current_index := 2 }

/-- A concrete price row 25 days after the epoch reference — outside every
valid intraday radius (`n_days_intraday ≤ 20`) but inside the daily 30-day
radius. -/
def cRowFar : Row :=
  { ticker := "A", date := 25 * oneDay, open_ := 5, high := 6, low := 4, close := 5, volume := 7 }

/-- A concrete intraday catalog state: one catalog entry ("A" at the epoch) and
a two-row price table at 0 and 25 days. -/
def cMinState : ChartsMinuteData :=
  ChartsMinuteData.init none [cRowA0] [cRowA0, cRowFar]

/-- Concrete one-ticker table rows with closes 100, 102, 104 on consecutive
days: first row. -/
def cSmaR0 : Row :=
  { ticker := "A", date := 0, open_ := 100, high := 101, low := 99, close := 100, volume := 1 }

/-- Second row of the concrete SMA table. -/
def cSmaR1 : Row :=
  { ticker := "A", date := oneDay, open_ := 102, high := 103, low := 101, close := 102, volume := 1 }

/-- Third row of the concrete SMA table. -/
def cSmaR2 : Row :=
  { ticker := "A", date := 2 * oneDay, open_ := 104, high := 105, low := 103, close := 104, volume := 1 }

/-- The concrete three-row SMA table. -/
def cDf3 : List Row := [cSmaR0, cSmaR1, cSmaR2]

/-- A malformed indicator entry: an unsupported name. -/
def cBadInd : Indicator := { name := "EMA", parameters := some [("period", 3)] }

/-- A well-formed SMA entry with period 2. -/
def cSma2Ind : Indicator := { name := "SMA", parameters := some [("period", 2)] }

theorem strLtB_trichotomy (as : List Char) :
    ∀ bs : List Char, strLtB as bs = true ∨ as = bs ∨ strLtB bs as = true := by
  induction as with
  | nil =>
    intro bs
    cases bs with
    | nil => exact Or.inr (Or.inl rfl)
    | cons b bs' => exact Or.inl rfl
  | cons a as' ih =>
    intro bs
    cases bs with
    | nil => exact Or.inr (Or.inr rfl)
    | cons b bs' =>
      rcases lt_trichotomy a b with hab | rfl | hba
      · left
        rw [strLtB, if_pos hab]
      · rcases ih bs' with h | h | h
        · left
          rw [strLtB, if_neg (lt_irrefl a), if_neg (lt_irrefl a)]
          exact h
        · exact Or.inr (Or.inl (by rw [h]))
        · right; right
          rw [strLtB, if_neg (lt_irrefl a), if_neg (lt_irrefl a)]
          exact h
      · right; right
        rw [strLtB, if_pos hba]

theorem strLtB_trans (as : List Char) : ∀ bs cs : List Char,
    strLtB as bs = true → strLtB bs cs = true → strLtB as cs = true := by
  induction as with
  | nil =>
    intro bs cs h1 h2
    cases bs with
    | nil => exact absurd h1 (by rw [strLtB]; exact Bool.false_ne_true)
    | cons b bs' =>
      cases cs with
      | nil => exact absurd h2 (by rw [strLtB]; exact Bool.false_ne_true)
      | cons c cs' => rw [strLtB]
  | cons a as' ih =>
    intro bs cs h1 h2
    cases bs with
    | nil => exact absurd h1 (by rw [strLtB]; exact Bool.false_ne_true)
    | cons b bs' =>
      cases cs with
      | nil => exact absurd h2 (by rw [strLtB]; exact Bool.false_ne_true)
      | cons c cs' =>
        rw [strLtB] at h1 h2 ⊢
        rcases lt_trichotomy a b with hab | rfl | hba
        · rcases lt_trichotomy b c with hbc | rfl | hcb
          · rw [if_pos (hab.trans hbc)]
          · rw [if_pos hab]
          · rw [if_neg (asymm hcb), if_pos hcb] at h2
            exact absurd h2 Bool.false_ne_true
        · rw [if_neg (lt_irrefl a), if_neg (lt_irrefl a)] at h1
          rcases lt_trichotomy a c with hac | rfl | hca
          · rw [if_pos hac]
          · rw [if_neg (lt_irrefl a), if_neg (lt_irrefl a)] at h2 ⊢
            exact ih bs' cs' h1 h2
          · rw [if_neg (asymm hca), if_pos hca] at h2
            exact absurd h2 Bool.false_ne_true
        · rw [if_neg (asymm hba), if_pos hba] at h1
          exact absurd h1 Bool.false_ne_true

theorem strLt_trichotomy (a b : String) :
    strLt a b = true ∨ a = b ∨ strLt b a = true := by
  rcases strLtB_trichotomy a.data b.data with h | h | h
  · exact Or.inl h
  · exact Or.inr (Or.inl (String.ext h))
  · exact Or.inr (Or.inr h)

theorem strLt_trans {a b c : String}
    (h1 : strLt a b = true) (h2 : strLt b c = true) : strLt a c = true :=
  strLtB_trans a.data b.data c.data h1 h2

theorem tickerDateLe_total : ∀ a b : Row, tickerDateLe a b ∨ tickerDateLe b a := by
  intro a b
  rcases strLt_trichotomy a.ticker b.ticker with h | h | h
  · exact Or.inl (Or.inl h)
  · rcases Int.le_total a.date b.date with hd | hd
    · exact Or.inl (Or.inr ⟨h, hd⟩)
    · exact Or.inr (Or.inr ⟨h.symm, hd⟩)
  · exact Or.inr (Or.inl h)

theorem tickerDateLe_trans :
    ∀ a b c : Row, tickerDateLe a b → tickerDateLe b c → tickerDateLe a c := by
  intro a b c hab hbc
  rcases hab with h1 | ⟨h1, d1⟩
  · rcases hbc with h2 | ⟨h2, _⟩
    · exact Or.inl (strLt_trans h1 h2)
    · exact Or.inl (h2 ▸ h1)
  · rcases hbc with h2 | ⟨h2, d2⟩
    · exact Or.inl (h1 ▸ h2)
    · exact Or.inr ⟨h1.trans h2, d1.trans d2⟩

theorem tickerDatetimeLe_total :
    ∀ a b : MinRow, tickerDatetimeLe a b ∨ tickerDatetimeLe b a := by
  intro a b
  rcases strLt_trichotomy a.ticker b.ticker with h | h | h
  · exact Or.inl (Or.inl h)
  · rcases Int.le_total a.datetime b.datetime with hd | hd
    · exact Or.inl (Or.inr ⟨h, hd⟩)
    · exact Or.inr (Or.inr ⟨h.symm, hd⟩)
  · exact Or.inr (Or.inl h)

theorem tickerDatetimeLe_trans :
    ∀ a b c : MinRow, tickerDatetimeLe a b → tickerDatetimeLe b c → tickerDatetimeLe a c := by
  intro a b c hab hbc
  rcases hab with h1 | ⟨h1, d1⟩
  · rcases hbc with h2 | ⟨h2, _⟩
    · exact Or.inl (strLt_trans h1 h2)
    · exact Or.inl (h2 ▸ h1)
  · rcases hbc with h2 | ⟨h2, d2⟩
    · exact Or.inl (h1 ▸ h2)
    · exact Or.inr ⟨h1.trans h2, d1.trans d2⟩

theorem mem_windowExtract {ticker : String} {date n_days : Int} {data : List Row}
    {r : Row} (h : r ∈ windowExtract ticker date n_days data) :
    r.ticker = ticker ∧ date - n_days ≤ r.date ∧ r.date ≤ date + n_days := by
  unfold windowExtract at h
  rw [List.mem_insertionSort] at h
  have hp := List.of_mem_filter h
  simp only [windowPred, Bool.and_eq_true, beq_iff_eq, decide_eq_true_eq] at hp
  exact ⟨hp.1.1, hp.1.2, hp.2⟩

theorem sorted_windowExtract (ticker : String) (date n_days : Int) (data : List Row) :
    List.Sorted dateLe (windowExtract ticker date n_days data) :=
  @List.sorted_insertionSort Row dateLe _ ⟨fun a b => Int.le_total a.date b.date⟩
    ⟨fun _ _ _ h1 h2 => le_trans h1 h2⟩ _

theorem length_windowExtract (ticker : String) (date n_days : Int) (data : List Row) :
    (windowExtract ticker date n_days data).length
      = (data.filter (windowPred ticker date n_days)).length :=
  (List.perm_insertionSort dateLe _).length_eq

/-- C2: for every ticker, reference timestamp, radius and source table, every row
of the extracted window matches the ticker and has its timestamp in the closed
interval `[reference - radius, reference + radius]`; the window is sorted
ascending by timestamp (the dense 0..n-1 index is implicit in the list model);
its row count equals the number of source rows satisfying the mask, so in
particular no match yields the empty table rather than an error; and
`load_daily_data` is this extraction at the fixed 30-day radius. -/
theorem C2_window_extraction (ticker : String) (date n_days : Int) (data : List Row) :
    (∀ r ∈ windowExtract ticker date n_days data,
        r.ticker = ticker ∧ date - n_days ≤ r.date ∧ r.date ≤ date + n_days)
    ∧ List.Sorted dateLe (windowExtract ticker date n_days data)
    ∧ (windowExtract ticker date n_days data).length
        = (data.filter (windowPred ticker date n_days)).length
    ∧ ((data.filter (windowPred ticker date n_days)).length = 0 →
        windowExtract ticker date n_days data = [])
    ∧ load_daily_data ticker date data = windowExtract ticker date (N_DAYS * oneDay) data := by
  refine ⟨fun r hr => mem_windowExtract hr, sorted_windowExtract .., length_windowExtract .., ?_, rfl⟩
  intro h0
  have := length_windowExtract ticker date n_days data
  rw [h0] at this
  exact List.length_eq_zero.mp this

/-- Witness for C2 at a concrete input: the single in-range row of a one-row
table is in the window and satisfies the mask. -/
theorem C2_witness :
    cRowA0.ticker = "A" ∧ 0 - oneDay ≤ cRowA0.date ∧ cRowA0.date ≤ 0 + oneDay :=
  (C2_window_extraction "A" 0 oneDay [cRowA0]).1 cRowA0 (by decide)

theorem mem_dropDupTDGo {l : List Row} {seen : List (String × Int)} {r : Row}
    (h : r ∈ dropDupTDGo seen l) : r ∈ l := by
  induction l generalizing seen with
  | nil => simp [dropDupTDGo] at h
  | cons a rs ih =>
    rw [dropDupTDGo] at h
    by_cases hs : keyOf a ∈ seen
    · rw [if_pos hs] at h
      exact List.mem_cons_of_mem a (ih h)
    · rw [if_neg hs] at h
      rcases List.mem_cons.mp h with h | h
      · exact h ▸ List.mem_cons_self a rs
      · exact List.mem_cons_of_mem a (ih h)

theorem mem_dropDuplicatesTD {l : List Row} {r : Row} (h : r ∈ dropDuplicatesTD l) :
    r ∈ l :=
  mem_dropDupTDGo h

theorem keyOf_not_mem_seen {l : List Row} {seen : List (String × Int)} {r : Row}
    (h : r ∈ dropDupTDGo seen l) : keyOf r ∉ seen := by
  induction l generalizing seen with
  | nil => simp [dropDupTDGo] at h
  | cons a rs ih =>
    rw [dropDupTDGo] at h
    by_cases hs : keyOf a ∈ seen
    · rw [if_pos hs] at h
      exact ih h
    · rw [if_neg hs] at h
      rcases List.mem_cons.mp h with h | h
      · exact h ▸ hs
      · intro hmem
        exact (ih h) (List.mem_cons_of_mem _ hmem)

theorem pairwise_dropDupTDGo (l : List Row) (seen : List (String × Int)) :
    List.Pairwise keyDistinct (dropDupTDGo seen l) := by
  induction l generalizing seen with
  | nil => simp [dropDupTDGo]
  | cons a rs ih =>
    rw [dropDupTDGo]
    by_cases hs : keyOf a ∈ seen
    · rw [if_pos hs]
      exact ih seen
    · rw [if_neg hs]
      refine List.Pairwise.cons (fun b hb => ?_) (ih _)
      have hnot := keyOf_not_mem_seen hb
      intro hk
      exact hnot (by
        simp only [keyOf, List.mem_cons]
        exact Or.inl (by rw [hk.1, hk.2]))

theorem pairwise_dropDuplicatesTD (l : List Row) :
    List.Pairwise keyDistinct (dropDuplicatesTD l) :=
  pairwise_dropDupTDGo l []

theorem keyDistinct_symm : Symmetric keyDistinct := by
  intro a b h hk
  exact h ⟨hk.1.symm, hk.2.symm⟩

/-- C6: for every daily table resource content, the loaded table has no two rows
with the same (ticker, date) key, is sorted ascending by (ticker, date) (dense
0..n-1 index implicit in the list model), and every row is an input row whose
volume has been coerced into the signed 64-bit integer range. -/
theorem C6_daily_loader (rows : List Row) :
    List.Pairwise keyDistinct (load_daily_df rows)
    ∧ List.Sorted tickerDateLe (load_daily_df rows)
    ∧ (∀ r ∈ load_daily_df rows,
        -(2 ^ 63) ≤ r.volume ∧ r.volume < 2 ^ 63
        ∧ ∃ r0 ∈ rows, r = { r0 with volume := toInt64 r0.volume }) := by
  refine ⟨?_,
    @List.sorted_insertionSort Row tickerDateLe _ ⟨tickerDateLe_total⟩ ⟨tickerDateLe_trans⟩ _, ?_⟩
  · have hperm := List.perm_insertionSort tickerDateLe
      ((dropDuplicatesTD rows).map fun r => { r with volume := toInt64 r.volume })
    have hmap : List.Pairwise keyDistinct
        ((dropDuplicatesTD rows).map fun r => { r with volume := toInt64 r.volume }) := by
      rw [List.pairwise_map]
      exact (pairwise_dropDuplicatesTD rows).imp fun h hk => h hk
    exact (List.Perm.pairwise_iff (fun {_ _} hxy => keyDistinct_symm hxy) hperm).mpr hmap
  · intro r hr
    rw [load_daily_df, List.mem_insertionSort, List.mem_map] at hr
    obtain ⟨r0, hr0, rfl⟩ := hr
    have hmod0 : 0 ≤ (r0.volume + 2 ^ 63) % 2 ^ 64 :=
      Int.emod_nonneg _ (by norm_num)
    have hmod1 : (r0.volume + 2 ^ 63) % 2 ^ 64 < 2 ^ 64 :=
      Int.emod_lt_of_pos _ (by norm_num)
    refine ⟨by simp only [toInt64]; omega, by simp only [toInt64]; omega,
      r0, mem_dropDuplicatesTD hr0, rfl⟩

/-- Witness for C6 at a concrete input: the loaded one-row table's row is
volume-coerced in the int64 range and originates from the input. -/
theorem C6_witness :
    -(2 ^ 63) ≤ cRowA0.volume ∧ cRowA0.volume < 2 ^ 63
    ∧ ∃ r0 ∈ [cRowA0], cRowA0 = { r0 with volume := toInt64 r0.volume } :=
  (C6_daily_loader [cRowA0]).2.2 cRowA0 (by decide)

theorem apply_indicators_single (p : Nat) (df : List Row) :
    apply_indicators (some [⟨"SMA", some [("period", p)]⟩]) df
      = addColumn ("SMA_" ++ toString p) (smaTransform p df) df := by
  simp [apply_indicators, List.lookup]

theorem length_smaTransform (p : Nat) (df : List Row) :
    (smaTransform p df).length = df.length := by
  simp [smaTransform]

theorem length_addColumn (name : String) (vals : List (Option ℚ)) (df : List Row)
    (hlen : vals.length = df.length) :
    (addColumn name vals df).length = df.length := by
  simp [addColumn, hlen]

theorem addColumn_getD (name : String) (vals : List (Option ℚ)) (df : List Row)
    (i : Nat) (hi : i < df.length) (hlen : vals.length = df.length) :
    (addColumn name vals df).getD i default
      = { df.getD i default with
          indicators := (df.getD i default).indicators ++ [(name, vals.getD i none)] } := by
  have hzi : i < (addColumn name vals df).length := by
    rw [length_addColumn name vals df hlen]; exact hi
  have hvi : i < vals.length := hlen ▸ hi
  rw [List.getD_eq_getElem _ _ hzi, List.getD_eq_getElem _ _ hi, List.getD_eq_getElem _ _ hvi]
  simp [addColumn, List.getElem_zipWith]

theorem smaTransform_getD (p : Nat) (df : List Row) (i : Nat) (hi : i < df.length) :
    (smaTransform p df).getD i none
      = (if p ≤ (groupSoFar df i).length then
          some (qmean (((groupSoFar df i).drop ((groupSoFar df i).length - p)).map Row.close))
        else none) := by
  have hvi : i < (smaTransform p df).length := by rw [length_smaTransform]; exact hi
  rw [List.getD_eq_getElem _ _ hvi]
  simp only [smaTransform, List.getElem_map, List.getElem_range]

theorem groupSoFar_take (df : List Row) (i : Nat) :
    groupSoFar df i
      = (df.filter fun r => r.ticker == (df.getD i default).ticker).take
          (groupSoFar df i).length := by
  unfold groupSoFar
  have htk := List.take_prefix (i + 1) df
  have hpre := htk.filter fun r => r.ticker == (df.getD i default).ticker
  obtain ⟨t, ht⟩ := hpre
  rw [← ht, List.take_left]

/-- C4: applying a single configured SMA indicator with integer period `p ≥ 1`
preserves the table's row count and row order (row `i` of the result is row `i`
of the input with exactly one appended indicator cell), and in the appended
`SMA_p` column a row whose 1-indexed position within its ticker group is below
`p` is missing, while the row at position exactly `p` carries the unweighted
mean of the group's first `p` close values. -/
theorem C4_sma_invariant (df : List Row) (p : Nat) (hp : 1 ≤ p) :
    (apply_indicators (some [⟨"SMA", some [("period", p)]⟩]) df).length = df.length
    ∧ (∀ i, i < df.length →
        (apply_indicators (some [⟨"SMA", some [("period", p)]⟩]) df).getD i default
          = { df.getD i default with
              indicators := (df.getD i default).indicators
                ++ [("SMA_" ++ toString p, (smaTransform p df).getD i none)] })
    ∧ (∀ i, i < df.length →
        ((groupSoFar df i).length < p → (smaTransform p df).getD i none = none)
        ∧ ((groupSoFar df i).length = p →
            (smaTransform p df).getD i none
              = some (qmean (((df.filter fun r =>
                  r.ticker == (df.getD i default).ticker).take p).map Row.close)))) := by
  refine ⟨?_, ?_, ?_⟩
  · rw [apply_indicators_single, length_addColumn _ _ _ (length_smaTransform p df)]
  · intro i hi
    rw [apply_indicators_single, addColumn_getD _ _ _ i hi (length_smaTransform p df)]
  · intro i hi
    constructor
    · intro hlt
      rw [smaTransform_getD p df i hi, if_neg (by omega)]
    · intro heq
      rw [smaTransform_getD p df i hi, if_pos (le_of_eq heq.symm)]
      rw [heq, Nat.sub_self, List.drop_zero]
      rw [groupSoFar_take df i, heq]

/-- Witness for C4 at a concrete input: in the three-row one-ticker table, the
third row's SMA_3 cell is the mean of the group's first three closes. -/
theorem C4_witness :
    (smaTransform 3 cDf3).getD 2 none
      = some (qmean (((cDf3.filter fun r =>
          r.ticker == (cDf3.getD 2 default).ticker).take 3).map Row.close)) :=
  ((C4_sma_invariant cDf3 3 (by decide)).2.2 2 (by decide)).2 (by decide)

/-- C5: an indicator entry whose name is not "SMA", or whose parameter
dictionary is absent or lacks a "period" key, contributes nothing and raises
nothing: `apply_indicators` over a configuration containing such an entry
returns exactly the table produced by the remaining entries. -/
theorem C5_malformed_entry_skipped (df : List Row) (pre post : List Indicator)
    (bad : Indicator)
    (hbad : bad.name ≠ "SMA" ∨ bad.parameters = none
        ∨ ∃ ps, bad.parameters = some ps ∧ List.lookup "period" ps = none) :
    apply_indicators (some (pre ++ bad :: post)) df
      = apply_indicators (some (pre ++ post)) df := by
  unfold apply_indicators
  simp only [Option.getD_some, List.foldl_append, List.foldl_cons]
  congr 1
  rcases hbad with h | h | ⟨ps, hps, hlook⟩
  · simp [h]
  · simp [h]
  · by_cases hn : bad.name == "SMA"
    · simp [hn, hps, hlook]
    · simp [hn]

/-- Witness for C5 at a concrete input: dropping the unsupported "EMA" entry
from the configuration leaves the result unchanged. -/
theorem C5_witness :
    apply_indicators (some ([] ++ cBadInd :: [cSma2Ind])) cDf3
      = apply_indicators (some ([] ++ [cSma2Ind])) cDf3 :=
  C5_malformed_entry_skipped cDf3 [] [cSma2Ind] cBadInd (Or.inl (by decide))

/-- C9: `apply_indicators` works in place: the table it returns is the
post-call state of its argument (`df[col] = ...` mutates the argument and
`return df` hands the same object back), that common value is the augmented
table, and for a nonempty input with a well-formed SMA entry the argument does
not survive the call unchanged — its rows now carry the appended cell. -/
theorem C9_apply_indicators_in_place (indicators : Option (List Indicator))
    (df : List Row) (p : Nat) (hne : df ≠ []) :
    (apply_indicators_call indicators df).2 = (apply_indicators_call indicators df).1
    ∧ (apply_indicators_call indicators df).1 = apply_indicators indicators df
    ∧ (apply_indicators_call (some [⟨"SMA", some [("period", p)]⟩]) df).1 ≠ df := by
  refine ⟨rfl, rfl, ?_⟩
  intro heq
  have h0 : 0 < df.length := List.length_pos.mpr hne
  have hres : (apply_indicators (some [⟨"SMA", some [("period", p)]⟩]) df).getD 0 default
      = { df.getD 0 default with
          indicators := (df.getD 0 default).indicators
            ++ [("SMA_" ++ toString p, (smaTransform p df).getD 0 none)] } := by
    rw [apply_indicators_single, addColumn_getD _ _ _ 0 h0 (length_smaTransform p df)]
  have heq2 : apply_indicators (some [⟨"SMA", some [("period", p)]⟩]) df = df := heq
  rw [heq2] at hres
  have hlen := congrArg (fun r => r.indicators.length) hres
  simp at hlen

/-- Witness for C9 at a concrete input: after applying an SMA entry to the
concrete table, the post-call state of the argument differs from the original
table. -/
theorem C9_witness :
    (apply_indicators_call (some [⟨"SMA", some [("period", 2)]⟩]) cDf3).1 ≠ cDf3 :=
  (C9_apply_indicators_in_place (some [⟨"SMA", some [("period", 2)]⟩]) cDf3 2
    (by decide)).2.2

theorem stripRows_eq_map {rows : List MinRawRow}
    (haware : ∀ r ∈ rows, r.datetime.tzOffset ≠ none) :
    stripRows rows = some (rows.map stripRow) := by
  induction rows with
  | nil => rfl
  | cons r rs ih =>
    have hr := haware r (List.mem_cons_self r rs)
    have hrest : ∀ x ∈ rs, x.datetime.tzOffset ≠ none :=
      fun x hx => haware x (List.mem_cons_of_mem r hx)
    rw [stripRows]
    rcases ho : r.datetime.tzOffset with _ | o
    · exact absurd ho hr
    · rw [tz_localize_none, ho, ih hrest]
      rfl

/-- C8: for every minute resource content whose timestamp column carries
timezone information, the loader succeeds and returns a table whose primary
`datetime` field is the timezone-naive wall clock of the original timestamp
(offset stripped, wall-clock reading unconverted), whose auxiliary `_date`
field is the original calendar-date column, whose rows are exactly the stripped
input rows, sorted ascending by (ticker, datetime) with the dense index
implicit in the list model. -/
theorem C8_minute_loader (rows : List MinRawRow)
    (haware : ∀ r ∈ rows, r.datetime.tzOffset ≠ none) :
    ∃ out, load_min_data rows = some out
      ∧ List.Sorted tickerDatetimeLe out
      ∧ out.Perm (rows.map stripRow)
      ∧ ∀ r0 ∈ rows, stripRow r0 ∈ out
          ∧ (stripRow r0).datetime = r0.datetime.wall
          ∧ (stripRow r0)._date = r0.date := by
  refine ⟨List.insertionSort tickerDatetimeLe (rows.map stripRow), ?_, ?_, ?_, ?_⟩
  · rw [load_min_data, stripRows_eq_map haware]
    rfl
  · exact @List.sorted_insertionSort MinRow tickerDatetimeLe _
      ⟨tickerDatetimeLe_total⟩ ⟨tickerDatetimeLe_trans⟩ _
  · exact List.perm_insertionSort _ _
  · intro r0 h0
    refine ⟨?_, rfl, rfl⟩
    rw [List.mem_insertionSort]
    exact List.mem_map_of_mem stripRow h0

/-- Witness for C8 at a concrete input: the two-row aware minute table loads
into a naive, renamed, sorted table. -/
theorem C8_witness :
    ∃ out, load_min_data [cMinRaw0, cMinRaw1] = some out
      ∧ List.Sorted tickerDatetimeLe out
      ∧ out.Perm ([cMinRaw0, cMinRaw1].map stripRow)
      ∧ ∀ r0 ∈ [cMinRaw0, cMinRaw1], stripRow r0 ∈ out
          ∧ (stripRow r0).datetime = r0.datetime.wall
          ∧ (stripRow r0)._date = r0.date :=
  C8_minute_loader [cMinRaw0, cMinRaw1] (by decide)

/-- C7: window extraction is pure and deterministic.  In the state-passing
view, both extractors hand back the `data` argument exactly as it came in (the
in-place operations act on the `.copy()`), and the returned window is the value
of the corresponding pure function of the inputs, so two calls with identical
inputs return identical windows. -/
theorem C7_extraction_pure (ticker : String) (date : Int) (data : List Row)
    (n_days_intraday : Int) (mticker : String) (mdate : Int) (n_days : Option Int)
    (mdata : List MinRow) :
    load_daily_data_call ticker date data = (data, load_daily_data ticker date data)
    ∧ load_min_chart_call n_days_intraday mticker mdate n_days mdata
        = (mdata, load_min_chart n_days_intraday mticker mdate n_days mdata) :=
  ⟨rfl, rfl⟩

theorem increase_index_charts (s : ChartsData) :
    (s.increase_index).1.charts = s.charts := by
  rw [ChartsData.increase_index]
  split <;> rfl

theorem decrease_index_charts (s : ChartsData) :
    (s.decrease_index).1.charts = s.charts := by
  rw [ChartsData.decrease_index]
  split <;> rfl

theorem emod_sub_emod_left (a b n : Int) : (a % n - b) % n = (a - b) % n := by
  conv_lhs => rw [Int.sub_emod, Int.emod_emod_of_dvd _ dvd_rfl]
  rw [← Int.sub_emod]

theorem increase_index_cursor (s : ChartsData)
    (h0 : 0 ≤ s.current_index) (hN : s.current_index < (s.charts.length : Int)) :
    (s.increase_index).1.current_index = (s.current_index + 1) % (s.charts.length : Int) := by
  rw [ChartsData.increase_index]
  by_cases h : s.current_index < (s.charts.length : Int) - 1
  · rw [if_pos h]
    show s.current_index + 1 = (s.current_index + 1) % (s.charts.length : Int)
    exact (Int.emod_eq_of_lt (by omega) (by omega)).symm
  · rw [if_neg h]
    show (0 : Int) = (s.current_index + 1) % (s.charts.length : Int)
    have : s.current_index + 1 = (s.charts.length : Int) := by omega
    rw [this, Int.emod_self]

theorem decrease_index_cursor (s : ChartsData)
    (h0 : 0 ≤ s.current_index) (hN : s.current_index < (s.charts.length : Int)) :
    (s.decrease_index).1.current_index
      = (s.current_index - 1) % (s.charts.length : Int) := by
  rw [ChartsData.decrease_index]
  by_cases h : 0 < s.current_index
  · rw [if_pos h]
    show s.current_index - 1 = (s.current_index - 1) % (s.charts.length : Int)
    exact (Int.emod_eq_of_lt (by omega) (by omega)).symm
  · rw [if_neg h]
    show (s.charts.length : Int) - 1 = (s.current_index - 1) % (s.charts.length : Int)
    have hz : s.current_index = 0 := by omega
    have hlen : (0 : Int) < (s.charts.length : Int) := by omega
    rw [hz]
    have h1 : (0 - 1 : Int)
        = ((s.charts.length : Int) - 1) + (s.charts.length : Int) * (-1) := by ring
    rw [h1, Int.add_mul_emod_self_left,
      Int.emod_eq_of_lt (by omega) (by omega)]

theorem incIter_state (k : Nat) (s : ChartsData)
    (h0 : 0 ≤ s.current_index) (hN : s.current_index < (s.charts.length : Int)) :
    (incIter k s).charts = s.charts
    ∧ (incIter k s).current_index
        = (s.current_index + (k : Int)) % (s.charts.length : Int) := by
  induction k generalizing s with
  | zero =>
    refine ⟨rfl, ?_⟩
    simpa using (Int.emod_eq_of_lt h0 hN).symm
  | succ n ih =>
    have hlen : (0 : Int) < (s.charts.length : Int) := by omega
    have hcharts := increase_index_charts s
    have hcur := increase_index_cursor s h0 hN
    have h0' : 0 ≤ (s.increase_index).1.current_index := by
      rw [hcur]; exact Int.emod_nonneg _ (by omega)
    have hN' : (s.increase_index).1.current_index
        < ((s.increase_index).1.charts.length : Int) := by
      rw [hcur, hcharts]; exact Int.emod_lt_of_pos _ hlen
    obtain ⟨ihc, ihi⟩ := ih (s.increase_index).1 h0' hN'
    refine ⟨by rw [incIter, ihc, hcharts], ?_⟩
    rw [incIter, ihi, hcharts, hcur, Int.emod_add_emod]
    congr 1
    push_cast
    ring

theorem decIter_state (k : Nat) (s : ChartsData)
    (h0 : 0 ≤ s.current_index) (hN : s.current_index < (s.charts.length : Int)) :
    (decIter k s).charts = s.charts
    ∧ (decIter k s).current_index
        = (s.current_index - (k : Int)) % (s.charts.length : Int) := by
  induction k generalizing s with
  | zero =>
    refine ⟨rfl, ?_⟩
    simpa using (Int.emod_eq_of_lt h0 hN).symm
  | succ n ih =>
    have hlen : (0 : Int) < (s.charts.length : Int) := by omega
    have hcharts := decrease_index_charts s
    have hcur := decrease_index_cursor s h0 hN
    have h0' : 0 ≤ (s.decrease_index).1.current_index := by
      rw [hcur]; exact Int.emod_nonneg _ (by omega)
    have hN' : (s.decrease_index).1.current_index
        < ((s.decrease_index).1.charts.length : Int) := by
      rw [hcur, hcharts]; exact Int.emod_lt_of_pos _ hlen
    obtain ⟨ihc, ihi⟩ := ih (s.decrease_index).1 h0' hN'
    refine ⟨by rw [decIter, ihc, hcharts], ?_⟩
    rw [decIter, ihi, hcharts, hcur, emod_sub_emod_left]
    congr 1
    push_cast
    ring

theorem ChartsData.eq_of_fields {a b : ChartsData}
    (h1 : a.charts = b.charts) (h2 : a.current_index = b.current_index) : a = b := by
  cases a; cases b
  simp_all

/-- C3: for a catalog of size `N ≥ 1` with the cursor at a valid position,
`increase_index` adds 1 to the cursor except at `N - 1` where it wraps to 0,
`decrease_index` subtracts 1 except at 0 where it wraps to `N - 1`, both update
the state to exactly the index they return, and applying either one exactly
`N` times returns the whole state to its starting point. -/
theorem C3_index_wraparound (s : ChartsData)
    (hne : 1 ≤ s.charts.length)
    (h0 : 0 ≤ s.current_index) (hN : s.current_index < (s.charts.length : Int)) :
    (s.increase_index).2
        = (if s.current_index = (s.charts.length : Int) - 1 then 0 else s.current_index + 1)
    ∧ (s.increase_index).1 = { s with current_index := (s.increase_index).2 }
    ∧ (s.decrease_index).2
        = (if s.current_index = 0 then (s.charts.length : Int) - 1 else s.current_index - 1)
    ∧ (s.decrease_index).1 = { s with current_index := (s.decrease_index).2 }
    ∧ incIter s.charts.length s = s
    ∧ decIter s.charts.length s = s := by
  refine ⟨?_, ?_, ?_, ?_, ?_, ?_⟩
  · rw [ChartsData.increase_index]
    by_cases h : s.current_index < (s.charts.length : Int) - 1
    · rw [if_pos h, if_neg (by omega)]
    · rw [if_neg h, if_pos (by omega)]
  · rw [ChartsData.increase_index]
    split <;> rfl
  · rw [ChartsData.decrease_index]
    by_cases h : 0 < s.current_index
    · rw [if_pos h, if_neg (by omega)]
    · rw [if_neg h, if_pos (by omega)]
  · rw [ChartsData.decrease_index]
    split <;> rfl
  · have hstate := incIter_state s.charts.length s h0 hN
    refine ChartsData.eq_of_fields hstate.1 ?_
    rw [hstate.2]
    have harg : s.current_index + (s.charts.length : Int)
        = s.current_index + (s.charts.length : Int) * 1 := by ring
    rw [harg, Int.add_mul_emod_self_left, Int.emod_eq_of_lt h0 hN]
  · have hstate := decIter_state s.charts.length s h0 hN
    refine ChartsData.eq_of_fields hstate.1 ?_
    rw [hstate.2]
    have harg : s.current_index - (s.charts.length : Int)
        = s.current_index + (s.charts.length : Int) * (-1) := by ring
    rw [harg, Int.add_mul_emod_self_left, Int.emod_eq_of_lt h0 hN]

/-- Witness for C3 at a concrete input: from cursor 2 of a size-3 catalog,
three increments (and three decrements) return the state to its start, and one
increment wraps to 0. -/
theorem C3_witness :
    incIter 3 cNavState = cNavState ∧ decIter 3 cNavState = cNavState
    ∧ (cNavState.increase_index).2 = 0 := by
  have h := C3_index_wraparound cNavState (by decide) (by decide) (by decide)
  refine ⟨h.2.2.2.2.1, h.2.2.2.2.2, ?_⟩
  rw [h.1]
  decide

/-- C10: immediately after construction of the intraday catalog variant,
before any `set_timeframe` call, the display-timeframe label is "1M", and for
every valid index the metadata record returned by `get_metadata` carries
timeframe "1M". -/
theorem C10_initial_timeframe (indicators : Option (List Indicator))
    (dictRows dataRows : List Row) (index : Int)
    (h0 : 0 ≤ index)
    (hlen : index.toNat < (ChartsMinuteData.init indicators dictRows dataRows).charts.length) :
    ((ChartsMinuteData.init indicators dictRows dataRows).get_metadata index).timeframe = "1M"
    ∧ (ChartsMinuteData.init indicators dictRows dataRows).current_timeframe = "1M" :=
  ⟨rfl, rfl⟩

/-- Witness for C10 at a concrete input: a freshly constructed one-entry
intraday catalog reports timeframe "1M" at index 0. -/
theorem C10_witness :
    ((ChartsMinuteData.init none [cRowA0] [cRowA0]).get_metadata 0).timeframe = "1M"
    ∧ (ChartsMinuteData.init none [cRowA0] [cRowA0]).current_timeframe = "1M" :=
  C10_initial_timeframe none [cRowA0] [cRowA0] 0 (by decide) (by decide)

/-- C1 counterexample: at the concrete intraday state `cMinState` (one catalog
entry "A" at the epoch; price rows 0 and 25 days out), `load_chart 0` returns a
window containing a bar 25 days from the reference — farther than every valid
intraday radius, since `n_days_intraday` is validated to be at most 20 — and
that window is exactly the unformatted output of the daily extractor
`load_daily_data` (30-day radius over the `date` column, no time-string
formatting, raw timestamp column still present), not an intraday
display-formatted window. -/
theorem C1_counterexample :
    ((cMinState.load_chart (some 0)).1.any fun r =>
        decide (20 * oneDay < r.date - (cMinState.get_metadata 0).date)) = true
    ∧ (cMinState.load_chart (some 0)).1 = load_daily_data "A" 0 cMinState.data := by
  constructor
  · decide
  · decide

/-- C1 amended: for every state of the intraday catalog variant and every
index, `load_chart` returns `get_metadata`'s record together with the window
produced by the daily extractor `load_daily_data` — every row matches the
catalog ticker at that index and lies within the fixed 30-day daily radius of
the catalog date (not the configured intraday radius, and not
display-formatted; the intraday path `load_min_chart` is never invoked). -/
theorem C1_minute_load_chart_daily (s : ChartsMinuteData) (index : Int) :
    (s.load_chart (some index)).2 = s.get_metadata index
    ∧ (s.load_chart (some index)).1
        = load_daily_data (s.get_metadata index).ticker (s.get_metadata index).date s.data
    ∧ ∀ r ∈ (s.load_chart (some index)).1,
        r.ticker = (s.get_metadata index).ticker
        ∧ (s.get_metadata index).date - N_DAYS * oneDay ≤ r.date
        ∧ r.date ≤ (s.get_metadata index).date + N_DAYS * oneDay := by
  refine ⟨rfl, rfl, fun r hr => ?_⟩
  have hr' : r ∈ windowExtract (s.get_metadata index).ticker (s.get_metadata index).date
      (N_DAYS * oneDay) s.data := hr
  exact mem_windowExtract hr'

/-- Witness for the amended C1 at a concrete input: the epoch bar of
`cMinState` is in the returned window, matching the catalog ticker within the
30-day radius. -/
theorem C1_witness :
    cRowA0.ticker = (cMinState.get_metadata 0).ticker
    ∧ (cMinState.get_metadata 0).date - N_DAYS * oneDay ≤ cRowA0.date
    ∧ cRowA0.date ≤ (cMinState.get_metadata 0).date + N_DAYS * oneDay :=
  (C1_minute_load_chart_daily cMinState 0).2.2 cRowA0 (by decide)

end DC
